import Mathlib

/-!
# Shallow embedding of the Execution Discipline Agent core

This file embeds the rule-evaluation and scoring engine of the repository
(`src/rules.py`, `src/agent.py`, `src/memory.py`, `src/schemas.py`) into
Lean 4 and proves the specification claims about it.

Modelling conventions:
* A pandas row becomes a `Trade` structure whose numeric columns are
  `Option ℚ` (`none` models a missing value / `NaN` for `pd.isna`).
* A trade table becomes a `List Trade`; `trades.iterrows()` over the usual
  `RangeIndex` becomes `List.enum`, pairing each row with its 0-based index.
* Python floats become `ℚ`; `round(x, 2)` becomes `round2` below.
* A Python dict used as an ordered mapping (`position_limits_by_regime`,
  `violation_summary`) becomes an insertion-ordered association list.
* Fallible operations (division, `json.loads`) get an `Except`-valued
  translation where a claim is about raising; the numeric-format parts of
  `detail` strings (`:.2f` etc.) are rendered with `toString`, since no
  claim depends on the formatted text.
-/

/-- `schemas.Violation`: one detected rule violation. -/
structure Violation where
  trade_index : Nat
  violation_type : String
  detail : String
deriving Repr, DecidableEq

/-- One row of the trade table.  `side` defaults to `"LONG"` at use sites,
matching `row.get("side", "LONG")`; numeric fields are `none` when the
column is absent or `NaN`. -/
structure Trade where
  side : Option String := none
  entry_price : Option ℚ := none
  exit_price : Option ℚ := none
  shares : Option ℚ := none
  stop_price : Option ℚ := none
deriving Repr, DecidableEq

/-- The plan dictionary: `allowed_regimes` is required (`plan["allowed_regimes"]`),
the remaining keys are optional (`plan.get(...)`). -/
structure Plan where
  allowed_regimes : List String
  stop_required : Bool := false
  account_size : Option ℚ := none
  position_limits_by_regime : Option (List (String × ℚ)) := none
deriving Repr

/-- The violation appended by `rules.check_regime_allowed` for trade `i`. -/
def regime_mismatch_viol (i : Nat) (current_regime : String) : Violation :=
  { trade_index := i
    violation_type := "Regime Mismatch"
    detail := "Trade taken during " ++ current_regime ++ " regime" }

/-- `rules.check_regime_allowed`. -/
def check_regime_allowed (trades : List Trade) (allowed_regimes : List String)
    (current_regime : String) : List Violation :=
  if current_regime ∉ allowed_regimes then
    (List.range trades.length).map (fun i => regime_mismatch_viol i current_regime)
  else []

/-- `rules.check_missing_stops`. -/
def check_missing_stops (trades : List Trade) : List Violation :=
  trades.enum.filterMap (fun p =>
    if p.2.stop_price.isNone then
      some { trade_index := p.1
             violation_type := "Missing Stop"
             detail := "Stop required but not provided" }
    else none)

/-- Per-row body of `rules.check_position_sizing`. -/
def position_sizing_row (account_size regime_limit_pct : ℚ) (current_regime : String)
    (p : Nat × Trade) : Option Violation :=
  match p.2.shares, p.2.entry_price with
  | some shares, some entry_price =>
    let position_size := shares * entry_price
    let position_pct := position_size / account_size * 100
    if position_pct > regime_limit_pct then
      some { trade_index := p.1
             violation_type := "Oversized for Regime"
             detail := "Position size " ++ toString position_pct ++ "% exceeds "
               ++ toString regime_limit_pct ++ "% limit for " ++ current_regime
               ++ " regime (position: $" ++ toString position_size ++ ")" }
    else none
  | _, _ => none

/-- `rules.check_position_sizing` (the plan-keyed sizing check; unused by the
agent, kept because `check_oversized_for_regime` refines it). -/
def check_position_sizing (trades : List Trade) (plan : Plan)
    (current_regime : String) : List Violation :=
  match plan.position_limits_by_regime, plan.account_size with
  | some position_limits, some account_size =>
    match position_limits.lookup current_regime with
    | some regime_limit_pct =>
      trades.enum.filterMap (position_sizing_row account_size regime_limit_pct current_regime)
    | none => []
  | _, _ => []

/-- Python `str.startswith`, modelled on the underlying character lists
(equivalent to `String.startsWith`, but kernel-computable). -/
def str_startswith (s pre : String) : Bool := pre.data.isPrefixOf s.data

/-- Limit resolution inside `rules.check_oversized_for_regime`: exact key
match first, otherwise the first entry whose key is a prefix of
`current_regime` (Python iterates the dict in insertion order). -/
def resolve_regime_limit (position_limits_by_regime : List (String × ℚ))
    (current_regime : String) : Option ℚ :=
  match position_limits_by_regime.lookup current_regime with
  | some v => some v
  | none =>
    (position_limits_by_regime.find? (fun kv => str_startswith current_regime kv.1)).map
      (fun kv => kv.2)

/-- Per-row body of `rules.check_oversized_for_regime`. -/
def oversized_row (max_value limit_pct : ℚ) (current_regime : String)
    (p : Nat × Trade) : Option Violation :=
  match p.2.entry_price, p.2.shares with
  | some entry, some shares =>
    let position_value := entry * shares
    if position_value > max_value then
      some { trade_index := p.1
             violation_type := "Oversized for Regime"
             detail := "Position value $" ++ toString position_value ++ " exceeds "
               ++ toString limit_pct ++ "% of account ($" ++ toString max_value
               ++ ") in regime " ++ current_regime }
    else none
  | _, _ => none

/-- `rules.check_oversized_for_regime`.  `if not account_size or
account_size <= 0` collapses to `account_size ≤ 0` over ℚ (the `not`
is falsy exactly at 0). -/
def check_oversized_for_regime (trades : List Trade) (account_size : ℚ)
    (position_limits_by_regime : List (String × ℚ)) (current_regime : String) :
    List Violation :=
  if account_size ≤ 0 then []
  else
    match resolve_regime_limit position_limits_by_regime current_regime with
    | none => []
    | some limit_pct =>
      let max_value := limit_pct / 100 * account_size
      trades.enum.filterMap (oversized_row max_value limit_pct current_regime)

/-- Python `str.upper`, modelled on the underlying character list
(equivalent to `String.toUpper`, but kernel-computable). -/
def str_upper (s : String) : String := String.mk (s.data.map Char.toUpper)

/-- The side string actually compared: `row.get("side", "LONG").upper()`. -/
def trade_side (row : Trade) : String := str_upper (row.side.getD "LONG")

/-- The risk distance of `rules.check_r_multiple` for one row:
`stop - entry` for SHORT, `entry - stop` otherwise. -/
def trade_risk (row : Trade) (entry_price stop_price : ℚ) : ℚ :=
  if trade_side row = "SHORT" then stop_price - entry_price
  else entry_price - stop_price

/-- The numerator of the R-multiple for one row. -/
def r_numerator (row : Trade) (entry_price exit_price : ℚ) : ℚ :=
  if trade_side row = "SHORT" then entry_price - exit_price
  else exit_price - entry_price

/-- The (at most one) `"Early Exit"` violation of one row:
`if 0 <= r_multiple < 0.5`. -/
def early_exit_viols (i : Nat) (r_multiple : ℚ) : List Violation :=
  if 0 ≤ r_multiple ∧ r_multiple < 1/2 then
    [{ trade_index := i
       violation_type := "Early Exit"
       detail := "Exited at " ++ toString r_multiple
         ++ "R (less than 0.5R threshold)" }]
  else []

/-- The (at most one) `"Late Exit"` violation of one row:
`hit_stop = abs(exit - stop) < 0.01`, flagged `if hit_stop and abs(risk) > 0.01`. -/
def late_exit_viols (i : Nat) (r_multiple risk exit_price stop_price : ℚ) :
    List Violation :=
  if |exit_price - stop_price| < 1/100 ∧ |risk| > 1/100 then
    [{ trade_index := i
       violation_type := "Late Exit"
       detail := "Hit stop loss at " ++ toString r_multiple ++ "R" }]
  else []

/-- Per-row body of `rules.check_r_multiple` (total version, valid for rows
whose `side` cell is a string or absent — the `Trade` model; see `TradeRow`
and `check_r_multiple_rowE` for the raw-row fallible translation). -/
def check_r_multiple_row (i : Nat) (row : Trade) : List Violation :=
  match row.entry_price, row.exit_price, row.stop_price with
  | some entry_price, some exit_price, some stop_price =>
    let risk := trade_risk row entry_price stop_price
    if |risk| < 1/10000 then []
    else
      let r_multiple := r_numerator row entry_price exit_price / risk
      early_exit_viols i r_multiple
        ++ late_exit_viols i r_multiple risk exit_price stop_price
  | _, _, _ => []

/-- `rules.check_r_multiple`: concatenate the per-row violations in row order. -/
def check_r_multiple (trades : List Trade) : List Violation :=
  (trades.enum.map (fun p => check_r_multiple_row p.1 p.2)).flatten

/-- Division as Python performs it: raises `ZeroDivisionError` on a zero
denominator. -/
def divE (a b : ℚ) : Except String ℚ :=
  if b = 0 then Except.error "ZeroDivisionError" else Except.ok (a / b)

/-- The raw `side` cell of a pandas row: the column may be absent from the
row (`row.get("side", "LONG")` then yields the default), hold a string, or
hold a non-string value such as `NaN` — a blank cell of an existing column —
on which `.upper()` raises `AttributeError`. -/
inductive SideCell where
  | absent
  | str (s : String)
  | nonstring
deriving Repr, DecidableEq

/-- A raw trade row for the fallible translation: like `Trade`, but the
`side` cell may hold a non-string value. -/
structure TradeRow where
  side : SideCell := SideCell.absent
  entry_price : Option ℚ := none
  exit_price : Option ℚ := none
  shares : Option ℚ := none
  stop_price : Option ℚ := none
deriving Repr, DecidableEq

/-- `row.get("side", "LONG").upper()` as Python performs it: the default
applies only when the column is absent; a non-string cell (e.g. `NaN`)
raises `AttributeError` because floats have no `.upper()`. -/
def side_upperE : SideCell → Except String String
  | SideCell.absent => Except.ok (str_upper "LONG")
  | SideCell.str s => Except.ok (str_upper s)
  | SideCell.nonstring => Except.error "AttributeError"

/-- A `Trade` (string-or-absent side) viewed as a raw row. -/
def Trade.toRow (t : Trade) : TradeRow :=
  { side := match t.side with
      | none => SideCell.absent
      | some s => SideCell.str s
    entry_price := t.entry_price
    exit_price := t.exit_price
    shares := t.shares
    stop_price := t.stop_price }

/-- Per-row body of `rules.check_r_multiple` with both raising operations
made explicit: `.upper()` on the side cell (computed before the `pd.isna`
guards, as in the source) and the division, whose `|risk| < 0.0001` guard
precedes it. -/
def check_r_multiple_rowE (i : Nat) (row : TradeRow) : Except String (List Violation) :=
  match side_upperE row.side with
  | Except.error e => Except.error e
  | Except.ok side =>
    match row.entry_price, row.exit_price, row.stop_price with
    | some entry_price, some exit_price, some stop_price =>
      let risk := if side = "SHORT" then stop_price - entry_price
        else entry_price - stop_price
      if |risk| < 1/10000 then Except.ok []
      else
        match divE (if side = "SHORT" then entry_price - exit_price
            else exit_price - entry_price) risk with
        | Except.error e => Except.error e
        | Except.ok r_multiple =>
          Except.ok (early_exit_viols i r_multiple
            ++ late_exit_viols i r_multiple risk exit_price stop_price)
    | _, _, _ => Except.ok []

/-- Row loop of the fallible `rules.check_r_multiple`: the first raising row
aborts the whole check, as an uncaught Python exception would. -/
def check_r_multipleE_aux : List (Nat × TradeRow) → Except String (List Violation)
  | [] => Except.ok []
  | p :: rest =>
    match check_r_multiple_rowE p.1 p.2 with
    | Except.error e => Except.error e
    | Except.ok vs =>
      match check_r_multipleE_aux rest with
      | Except.error e => Except.error e
      | Except.ok tail => Except.ok (vs ++ tail)

/-- `rules.check_r_multiple`, fallible version over raw rows. -/
def check_r_multipleE (rows : List TradeRow) : Except String (List Violation) :=
  check_r_multipleE_aux rows.enum

/-- One entry of the persisted history (`agent.py` appends this dict). -/
structure RunRecord where
  compliance_score : ℚ
  violations : List Violation
  violation_summary : List (String × Nat)
deriving Repr

/-- The persisted state (`memory.DEFAULT_STATE` shape). -/
structure Memory where
  history : List RunRecord
deriving Repr

/-- `schemas.DisciplineReport`. -/
structure DisciplineReport where
  compliance_score : ℚ
  violations : List Violation
  regime_mismatch_rate : ℚ
  violation_summary : List (String × Nat)
  compliance_trend : String
deriving Repr

/-- What `load_memory` finds on disk: no file, an unparseable file, or a
parseable history state. -/
inductive StoredState where
  | missing
  | corrupt
  | parsed (state : Memory)

/-- `memory.load_memory`: a missing file yields `DEFAULT_STATE.copy()`;
otherwise the content goes through `json.loads`, which raises on
unparseable input (there is no try/except around it). -/
def load_memory : StoredState → Except String Memory
  | StoredState.missing => Except.ok { history := [] }
  | StoredState.corrupt => Except.error "json.JSONDecodeError"
  | StoredState.parsed state => Except.ok state

/-- Python `round(x, 2)` over ℚ: round to the nearest hundredth. -/
def round2 (q : ℚ) : ℚ := (round (q * 100) : ℤ) / 100

/-- One step of building `violation_summary`:
`violation_summary[vt] = violation_summary.get(vt, 0) + 1` on an
insertion-ordered dict. -/
def bump_summary (summary : List (String × Nat)) (k : String) : List (String × Nat) :=
  if (summary.lookup k).isSome then
    summary.map (fun kv => if kv.1 = k then (kv.1, kv.2 + 1) else kv)
  else summary ++ [(k, 1)]

/-- The `violation_summary` aggregation loop of `agent.run`. -/
def violation_summary_of (violations : List Violation) : List (String × Nat) :=
  violations.foldl (fun acc v => bump_summary acc v.violation_type) []

/-- The classification part of `agent._calculate_compliance_trend`, applied
to the extracted score window. -/
def trend_of_scores (scores : List ℚ) : String :=
  if scores.length < 2 then "flat"
  else
    let mid_point := scores.length / 2
    let first_half := if 4 ≤ scores.length then scores.take mid_point else scores.take 1
    let second_half :=
      if 4 ≤ scores.length then scores.drop mid_point
      else scores.drop (scores.length - 1)
    let avg_first := first_half.sum / first_half.length
    let avg_second := second_half.sum / second_half.length
    if avg_second > avg_first + 1/50 then "improving"
    else if avg_second < avg_first - 1/50 then "worsening"
    else "flat"

/-- `agent._calculate_compliance_trend`: guard on history size, extract the
compliance scores of the last up-to-5 entries (`history[-5:]`), classify. -/
def calculate_compliance_trend (history : List RunRecord) : String :=
  if history.length < 2 then "flat"
  else
    trend_of_scores
      ((history.drop (history.length - 5)).map (fun entry => entry.compliance_score))

/-- The result of one `agent.run` call: the report, the in-memory state
afterwards, and the state passed to `save_memory` (recorded separately so
that the save-before-trend ordering is visible in the model). -/
structure RunResult where
  report : DisciplineReport
  memory : Memory
  saved : Memory
deriving Repr

/-- The violation list assembled by `agent.run`, in check order.
`float(plan.get("account_size", 0) or 0)` is `plan.account_size.getD 0`
over ℚ, and `plan.get(..., {}) or {}` is `getD []`. -/
def run_violations (trades : List Trade) (plan : Plan) (regime_label : String) :
    List Violation :=
  check_regime_allowed trades plan.allowed_regimes regime_label
    ++ (if plan.stop_required then check_missing_stops trades else [])
    ++ check_oversized_for_regime trades (plan.account_size.getD 0)
        (plan.position_limits_by_regime.getD []) regime_label
    ++ check_r_multiple trades

/-- `ExecutionDisciplineAgent.run`. -/
def ExecutionDisciplineAgent.run (memory : Memory) (trades : List Trade)
    (plan : Plan) (regime_label : String) : RunResult :=
  let violations := run_violations trades plan regime_label
  let compliance_score :=
    max 0 (round2 (1 - (violations.length : ℚ) / (max trades.length 1 : ℕ)))
  let regime_mismatch_rate :=
    ((violations.filter (fun v => v.violation_type = "Regime Mismatch")).length : ℚ)
      / (max trades.length 1 : ℕ)
  let summary := violation_summary_of violations
  let memory2 : Memory :=
    { history := memory.history
        ++ [{ compliance_score := compliance_score
              violations := violations
              violation_summary := summary }] }
  let saved := memory2
  let compliance_trend := calculate_compliance_trend saved.history
  { report :=
      { compliance_score := compliance_score
        violations := violations
        regime_mismatch_rate := round2 regime_mismatch_rate
        violation_summary := summary
        compliance_trend := compliance_trend }
    memory := memory2
    saved := saved }

/-! ## General lemmas -/

theorem round2_mono {x y : ℚ} (h : x ≤ y) : round2 x ≤ round2 y := by
  unfold round2
  have h2 : round (x * 100) ≤ round (y * 100) := by
    rw [round_eq, round_eq]
    exact Int.floor_le_floor (by linarith)
  have h3 : ((round (x * 100) : ℤ) : ℚ) ≤ ((round (y * 100) : ℤ) : ℚ) := by
    exact_mod_cast h2
  linarith

theorem round2_one : round2 1 = 1 := by
  have h : (1 : ℚ) * 100 = ((100 : ℤ) : ℚ) := by norm_num
  unfold round2
  rw [h, round_intCast]
  norm_num

/-- The clamped, rounded score formula is bounded by `[0, 1]` for any
violation count `v` and trade count `n`. -/
theorem score_bounds (v n : ℕ) :
    0 ≤ max 0 (round2 (1 - (v : ℚ) / (max n 1 : ℕ)))
      ∧ max 0 (round2 (1 - (v : ℚ) / (max n 1 : ℕ))) ≤ 1 := by
  refine ⟨le_max_left 0 _, ?_⟩
  have hM : (1 : ℚ) ≤ (max n 1 : ℕ) := by
    exact_mod_cast Nat.le_max_right n 1
  have hquot : 0 ≤ (v : ℚ) / (max n 1 : ℕ) :=
    div_nonneg (by positivity) (by linarith)
  have hx : 1 - (v : ℚ) / (max n 1 : ℕ) ≤ 1 := by linarith
  have hr := round2_mono hx
  rw [round2_one] at hr
  exact max_le (by norm_num) hr

/-! ## Claim theorems -/

/-- Claim C1: for every trade sequence of length N and the violation list the
checks produce, the report's `compliance_score` equals
`max(0.0, round(1.0 - V / max(N, 1), 2))` (so one violation costs one unit
regardless of type, with divisor 1 when N = 0), and the score always lies in
`[0.0, 1.0]`. -/
theorem run_compliance_score_spec (memory : Memory) (trades : List Trade)
    (plan : Plan) (regime_label : String) :
    (ExecutionDisciplineAgent.run memory trades plan regime_label).report.compliance_score
        = max 0 (round2 (1 -
            (((ExecutionDisciplineAgent.run memory trades plan regime_label).report.violations.length : ℚ))
              / (max trades.length 1 : ℕ)))
      ∧ 0 ≤ (ExecutionDisciplineAgent.run memory trades plan regime_label).report.compliance_score
      ∧ (ExecutionDisciplineAgent.run memory trades plan regime_label).report.compliance_score ≤ 1 := by
  refine ⟨rfl, ?_, ?_⟩
  · exact (score_bounds (run_violations trades plan regime_label).length trades.length).1
  · exact (score_bounds (run_violations trades plan regime_label).length trades.length).2

/-- Claim C9: every `run()` invocation appends exactly one record to the
history (prior entries unchanged), the state handed to `save_memory` is the
post-append state, the trend is computed from that saved history (whose
newest entry is the current run's record), and the appended record's
`compliance_score` lies in `[0.0, 1.0]`. -/
theorem run_history_spec (memory : Memory) (trades : List Trade) (plan : Plan)
    (regime_label : String) :
    ∃ rec : RunRecord,
      (ExecutionDisciplineAgent.run memory trades plan regime_label).memory.history
          = memory.history ++ [rec]
        ∧ (ExecutionDisciplineAgent.run memory trades plan regime_label).saved
            = (ExecutionDisciplineAgent.run memory trades plan regime_label).memory
        ∧ (ExecutionDisciplineAgent.run memory trades plan regime_label).report.compliance_trend
            = calculate_compliance_trend (memory.history ++ [rec])
        ∧ (memory.history ++ [rec]).getLast? = some rec
        ∧ rec.compliance_score
            = (ExecutionDisciplineAgent.run memory trades plan regime_label).report.compliance_score
        ∧ 0 ≤ rec.compliance_score ∧ rec.compliance_score ≤ 1 := by
  refine ⟨⟨max 0 (round2 (1 - ((run_violations trades plan regime_label).length : ℚ)
        / (max trades.length 1 : ℕ))),
      run_violations trades plan regime_label,
      violation_summary_of (run_violations trades plan regime_label)⟩,
    rfl, rfl, rfl, by simp, rfl,
    (score_bounds (run_violations trades plan regime_label).length trades.length).1,
    (score_bounds (run_violations trades plan regime_label).length trades.length).2⟩

theorem getElem?_enum_eq {α : Type} (l : List α) (m : Nat) :
    l.enum[m]? = l[m]?.map (fun a => (m, a)) := by
  rw [List.enum_eq_enumFrom, List.getElem?_enumFrom]
  simp

theorem mem_enum_iff {α : Type} {l : List α} {p : Nat × α} :
    p ∈ l.enum ↔ l[p.1]? = some p.2 := by
  rw [List.mem_iff_getElem?]
  constructor
  · rintro ⟨i, hi⟩
    rw [getElem?_enum_eq] at hi
    rcases hget : l[i]? with _ | a
    · rw [hget] at hi
      cases hi
    · rw [hget, Option.map_some'] at hi
      injection hi with h
      subst h
      exact hget
  · intro h
    exact ⟨p.1, by rw [getElem?_enum_eq, h]; simp⟩

theorem mem_filterMap_enum_iff {α β : Type} {f : Nat × α → Option β} {l : List α} {b : β} :
    b ∈ l.enum.filterMap f ↔ ∃ i t, l[i]? = some t ∧ f (i, t) = some b := by
  simp only [List.mem_filterMap]
  constructor
  · rintro ⟨p, hp, hf⟩
    exact ⟨p.1, p.2, mem_enum_iff.1 hp, hf⟩
  · rintro ⟨i, t, hit, hf⟩
    exact ⟨(i, t), mem_enum_iff.2 hit, hf⟩

theorem mem_check_r_multiple_iff {trades : List Trade} {v : Violation} :
    v ∈ check_r_multiple trades
      ↔ ∃ i t, trades[i]? = some t ∧ v ∈ check_r_multiple_row i t := by
  unfold check_r_multiple
  simp only [List.mem_flatten, List.mem_map]
  constructor
  · rintro ⟨l, ⟨p, hp, rfl⟩, hv⟩
    exact ⟨p.1, p.2, mem_enum_iff.1 hp, hv⟩
  · rintro ⟨i, t, hit, hv⟩
    exact ⟨check_r_multiple_row i t, ⟨(i, t), mem_enum_iff.2 hit, rfl⟩, hv⟩

theorem early_exit_viols_spec {v : Violation} {i : Nat} {r : ℚ}
    (h : v ∈ early_exit_viols i r) :
    v.trade_index = i ∧ v.violation_type = "Early Exit" ∧ 0 ≤ r ∧ r < 1/2 := by
  unfold early_exit_viols at h
  split at h
  · rename_i hc
    obtain rfl := List.mem_singleton.1 h
    exact ⟨rfl, rfl, hc.1, hc.2⟩
  · cases h

theorem exists_early_exit_viol (i : Nat) (r : ℚ) (h0 : 0 ≤ r) (hlt : r < 1/2) :
    ∃ v ∈ early_exit_viols i r, v.trade_index = i ∧ v.violation_type = "Early Exit" := by
  unfold early_exit_viols
  rw [if_pos ⟨h0, hlt⟩]
  exact ⟨_, List.mem_singleton_self _, rfl, rfl⟩

theorem late_exit_viols_spec {v : Violation} {i : Nat} {r risk x st : ℚ}
    (h : v ∈ late_exit_viols i r risk x st) :
    v.trade_index = i ∧ v.violation_type = "Late Exit"
      ∧ |x - st| < 1/100 ∧ |risk| > 1/100 := by
  unfold late_exit_viols at h
  split at h
  · rename_i hc
    obtain rfl := List.mem_singleton.1 h
    exact ⟨rfl, rfl, hc.1, hc.2⟩
  · cases h

theorem exists_late_exit_viol (i : Nat) (r risk x st : ℚ)
    (hstop : |x - st| < 1/100) (hrisk : |risk| > 1/100) :
    ∃ v ∈ late_exit_viols i r risk x st,
      v.trade_index = i ∧ v.violation_type = "Late Exit" := by
  unfold late_exit_viols
  rw [if_pos ⟨hstop, hrisk⟩]
  exact ⟨_, List.mem_singleton_self _, rfl, rfl⟩

theorem mem_check_r_multiple_row_iff {v : Violation} {i : Nat} {row : Trade} :
    v ∈ check_r_multiple_row i row ↔
      ∃ e x st, row.entry_price = some e ∧ row.exit_price = some x
        ∧ row.stop_price = some st
        ∧ ¬(|trade_risk row e st| < 1/10000)
        ∧ (v ∈ early_exit_viols i (r_numerator row e x / trade_risk row e st)
            ∨ v ∈ late_exit_viols i (r_numerator row e x / trade_risk row e st)
                (trade_risk row e st) x st) := by
  unfold check_r_multiple_row
  rcases he : row.entry_price with _ | e
  · simp [he]
  rcases hx : row.exit_price with _ | x
  · simp [hx]
  rcases hst : row.stop_price with _ | st
  · simp [hst]
  by_cases hg : |trade_risk row e st| < 1/10000
  · simp [he, hx, hst, hg]
  · simp [he, hx, hst, hg, List.mem_append]

theorem type_of_mem_check_regime {trades : List Trade} {allowed : List String}
    {regime : String} {v : Violation}
    (h : v ∈ check_regime_allowed trades allowed regime) :
    v.violation_type = "Regime Mismatch" := by
  unfold check_regime_allowed at h
  split at h
  · rw [List.mem_map] at h
    obtain ⟨i, _, rfl⟩ := h
    rfl
  · cases h

theorem type_of_mem_check_missing_stops {trades : List Trade} {v : Violation}
    (h : v ∈ check_missing_stops trades) : v.violation_type = "Missing Stop" := by
  unfold check_missing_stops at h
  rw [List.mem_filterMap] at h
  obtain ⟨p, _, hp⟩ := h
  split at hp
  · injection hp with h'
    subst h'
    rfl
  · cases hp

theorem type_of_mem_check_oversized {trades : List Trade} {a : ℚ}
    {limits : List (String × ℚ)} {regime : String} {v : Violation}
    (h : v ∈ check_oversized_for_regime trades a limits regime) :
    v.violation_type = "Oversized for Regime" := by
  unfold check_oversized_for_regime at h
  split at h
  · cases h
  · split at h
    · cases h
    · rw [List.mem_filterMap] at h
      obtain ⟨p, _, hp⟩ := h
      unfold oversized_row at hp
      split at hp
      · dsimp only at hp
        split at hp
        · injection hp with h'
          subst h'
          rfl
        · cases hp
      · cases hp

theorem type_of_mem_check_r_multiple {trades : List Trade} {v : Violation}
    (h : v ∈ check_r_multiple trades) :
    v.violation_type = "Early Exit" ∨ v.violation_type = "Late Exit" := by
  rw [mem_check_r_multiple_iff] at h
  obtain ⟨i, t, _, hv⟩ := h
  rw [mem_check_r_multiple_row_iff] at hv
  obtain ⟨e, x, st, _, _, _, _, hv⟩ := hv
  rcases hv with hv | hv
  · exact Or.inl (early_exit_viols_spec hv).2.1
  · exact Or.inr (late_exit_viols_spec hv).2.1

theorem regime_filter_eq_nil_parts (trades : List Trade) (plan : Plan)
    (regime_label : String) :
    ((if plan.stop_required = true then check_missing_stops trades
        else ([] : List Violation)).filter
      (fun v => v.violation_type = "Regime Mismatch") = [])
    ∧ ((check_oversized_for_regime trades (plan.account_size.getD 0)
          (plan.position_limits_by_regime.getD []) regime_label).filter
        (fun v => v.violation_type = "Regime Mismatch") = [])
    ∧ ((check_r_multiple trades).filter
        (fun v => v.violation_type = "Regime Mismatch") = []) := by
  refine ⟨?_, ?_, ?_⟩
  · split
    · exact List.filter_eq_nil_iff.2 (fun a ha => by
        rw [type_of_mem_check_missing_stops ha]
        simp)
    · rfl
  · exact List.filter_eq_nil_iff.2 (fun a ha => by
      rw [type_of_mem_check_oversized ha]
      simp)
  · exact List.filter_eq_nil_iff.2 (fun a ha => by
      rcases type_of_mem_check_r_multiple ha with h | h <;> rw [h] <;> simp)

theorem regime_filter_length (trades : List Trade) (plan : Plan)
    (regime_label : String) (hnot : regime_label ∉ plan.allowed_regimes) :
    ((run_violations trades plan regime_label).filter
        (fun v => v.violation_type = "Regime Mismatch")).length = trades.length := by
  obtain ⟨hB, hC, hD⟩ := regime_filter_eq_nil_parts trades plan regime_label
  have hA : (check_regime_allowed trades plan.allowed_regimes regime_label).filter
      (fun v => v.violation_type = "Regime Mismatch")
        = check_regime_allowed trades plan.allowed_regimes regime_label :=
    List.filter_eq_self.2 (fun a ha => by
      rw [type_of_mem_check_regime ha]
      simp)
  have hA_len : (check_regime_allowed trades plan.allowed_regimes regime_label).length
      = trades.length := by
    unfold check_regime_allowed
    rw [if_pos hnot]
    simp
  unfold run_violations
  simp only [List.filter_append, List.length_append, hA, hB, hC, hD, hA_len,
    List.length_nil]
  omega

/-- Claim C2: with N > 0 trades, if the declared regime is not allowed then
every trade index gets a `"Regime Mismatch"` violation and
`regime_mismatch_rate` is 1.0; if the regime is allowed, no
`"Regime Mismatch"` violation is produced. -/
theorem run_regime_mismatch_spec (memory : Memory) (trades : List Trade)
    (plan : Plan) (regime_label : String) :
    (regime_label ∉ plan.allowed_regimes →
        (∀ i < trades.length,
          ∃ v ∈ (ExecutionDisciplineAgent.run memory trades plan regime_label).report.violations,
            v.trade_index = i ∧ v.violation_type = "Regime Mismatch")
          ∧ (0 < trades.length →
              (ExecutionDisciplineAgent.run memory trades plan regime_label).report.regime_mismatch_rate
                = 1))
      ∧ (regime_label ∈ plan.allowed_regimes →
          ∀ v ∈ (ExecutionDisciplineAgent.run memory trades plan regime_label).report.violations,
            v.violation_type ≠ "Regime Mismatch") := by
  have hviols : (ExecutionDisciplineAgent.run memory trades plan regime_label).report.violations
      = run_violations trades plan regime_label := rfl
  have hrate : (ExecutionDisciplineAgent.run memory trades plan regime_label).report.regime_mismatch_rate
      = round2 ((((run_violations trades plan regime_label).filter
            (fun v => v.violation_type = "Regime Mismatch")).length : ℚ)
          / (max trades.length 1 : ℕ)) := rfl
  constructor
  · intro hnot
    constructor
    · intro i hi
      rw [hviols]
      refine ⟨regime_mismatch_viol i regime_label, ?_, rfl, rfl⟩
      have hA : regime_mismatch_viol i regime_label
          ∈ check_regime_allowed trades plan.allowed_regimes regime_label := by
        unfold check_regime_allowed
        rw [if_pos hnot]
        exact List.mem_map.2 ⟨i, List.mem_range.2 hi, rfl⟩
      unfold run_violations
      simp only [List.mem_append]
      exact Or.inl (Or.inl (Or.inl hA))
    · intro hpos
      rw [hrate, regime_filter_length trades plan regime_label hnot]
      have hmax : max trades.length 1 = trades.length := max_eq_left hpos
      rw [hmax]
      rw [div_self (Nat.cast_ne_zero.2 (Nat.pos_iff_ne_zero.1 hpos)), round2_one]
  · intro hmem
    rw [hviols]
    intro v hv
    unfold run_violations at hv
    simp only [List.mem_append] at hv
    rcases hv with ((hv | hv) | hv) | hv
    · unfold check_regime_allowed at hv
      rw [if_neg (by simp [hmem])] at hv
      cases hv
    · split at hv
      · rw [type_of_mem_check_missing_stops hv]
        decide
      · cases hv
    · rw [type_of_mem_check_oversized hv]
      decide
    · rcases type_of_mem_check_r_multiple hv with h | h <;> rw [h] <;> decide

/-- Witness for C2 at a concrete run: one trade, declared regime not allowed. -/
theorem run_regime_mismatch_witness :
    (∃ v ∈ (ExecutionDisciplineAgent.run { history := [] } [{ }]
        { allowed_regimes := ["Risk-On"] } "Risk-Off").report.violations,
      v.trade_index = 0 ∧ v.violation_type = "Regime Mismatch")
    ∧ (ExecutionDisciplineAgent.run { history := [] } [{ }]
        { allowed_regimes := ["Risk-On"] } "Risk-Off").report.regime_mismatch_rate = 1 := by
  have h := (run_regime_mismatch_spec { history := [] } [{ }]
    { allowed_regimes := ["Risk-On"] } "Risk-Off").1 (by decide)
  exact ⟨h.1 0 (by decide), h.2 (by decide)⟩

theorem drop_length_sub_one {α : Type} :
    ∀ (l : List α) (x : α), l.getLast? = some x → l.drop (l.length - 1) = [x]
  | [], x, h => by cases h
  | [a], x, h => by
    simp only [List.getLast?_singleton, Option.some.injEq] at h
    subst h
    rfl
  | a :: b :: l, x, h => by
    rw [List.getLast?_cons_cons] at h
    have ih := drop_length_sub_one (b :: l) x h
    simp only [List.length_cons] at ih ⊢
    rw [show l.length + 1 + 1 - 1 = (l.length + 1 - 1) + 1 from by omega,
      List.drop_succ_cons]
    simpa using ih

theorem take_one_avg {scores : List ℚ} (h : scores ≠ []) :
    (scores.take 1).sum / ((scores.take 1).length : ℚ) = scores.headD 0 := by
  cases scores with
  | nil => exact absurd rfl h
  | cons a l => simp

theorem drop_last_avg {scores : List ℚ} (h : scores ≠ []) :
    (scores.drop (scores.length - 1)).sum
        / ((scores.drop (scores.length - 1)).length : ℚ)
      = scores.getLastD 0 := by
  obtain ⟨x, hx⟩ : ∃ x, scores.getLast? = some x := by
    rcases hgl : scores.getLast? with _ | x
    · rw [List.getLast?_eq_none_iff] at hgl
      exact absurd hgl h
    · exact ⟨x, rfl⟩
  rw [drop_length_sub_one scores x hx, List.getLastD_eq_getLast?, hx]
  simp

theorem trend_of_scores_eq (scores : List ℚ) (h2 : 2 ≤ scores.length)
    (a1 a2 : ℚ)
    (h1 : a1 = (if 4 ≤ scores.length then
        (scores.take (scores.length / 2)).sum
          / ((scores.take (scores.length / 2)).length : ℚ)
      else scores.headD 0))
    (hsecond : a2 = (if 4 ≤ scores.length then
        (scores.drop (scores.length / 2)).sum
          / ((scores.drop (scores.length / 2)).length : ℚ)
      else scores.getLastD 0)) :
    trend_of_scores scores =
      if a2 > a1 + 1/50 then "improving"
      else if a2 < a1 - 1/50 then "worsening" else "flat" := by
  subst h1 hsecond
  unfold trend_of_scores
  rw [if_neg (by omega)]
  by_cases h4 : 4 ≤ scores.length
  · simp only [if_pos h4]
  · have hne : scores ≠ [] := by
      intro hnil
      rw [hnil] at h2
      simp at h2
    simp only [if_neg h4]
    rw [take_one_avg hne, drop_last_avg hne]

/-- Claim C3: the trend classifier over the compliance scores of the last
up-to-5 history entries returns `"flat"` with fewer than 2 scores; with 4-5
scores it compares the means of the two halves split at `len / 2`, with 2-3
scores it compares the first score against the last; `"improving"` iff the
second mean exceeds the first by more than 0.02, `"worsening"` iff it is
below by more than 0.02, `"flat"` otherwise. -/
theorem trend_classifier_spec (history : List RunRecord) :
    (((history.drop (history.length - 5)).map
          (fun entry => entry.compliance_score)).length < 2 →
        calculate_compliance_trend history = "flat")
      ∧ (∀ scores : List ℚ,
          scores = (history.drop (history.length - 5)).map
            (fun entry => entry.compliance_score) →
          2 ≤ scores.length →
          ∀ avg_first avg_second : ℚ,
          avg_first = (if 4 ≤ scores.length then
              (scores.take (scores.length / 2)).sum
                / ((scores.take (scores.length / 2)).length : ℚ)
            else scores.headD 0) →
          avg_second = (if 4 ≤ scores.length then
              (scores.drop (scores.length / 2)).sum
                / ((scores.drop (scores.length / 2)).length : ℚ)
            else scores.getLastD 0) →
          (calculate_compliance_trend history = "improving"
              ↔ avg_second > avg_first + 1/50)
            ∧ (calculate_compliance_trend history = "worsening"
              ↔ avg_second < avg_first - 1/50)
            ∧ (calculate_compliance_trend history = "flat"
              ↔ ¬avg_second > avg_first + 1/50 ∧ ¬avg_second < avg_first - 1/50)) := by
  constructor
  · intro hlt
    rw [List.length_map, List.length_drop] at hlt
    unfold calculate_compliance_trend
    rw [if_pos (by omega)]
  · intro scores hs h2 avg_first avg_second haf has
    have hlens : scores.length = history.length - (history.length - 5) := by
      rw [hs, List.length_map, List.length_drop]
    have htrend : calculate_compliance_trend history = trend_of_scores scores := by
      unfold calculate_compliance_trend
      rw [if_neg (by omega), ← hs]
    rw [htrend, trend_of_scores_eq scores h2 avg_first avg_second haf has]
    by_cases hc1 : avg_second > avg_first + 1/50
    · rw [if_pos hc1]
      refine ⟨⟨fun _ => hc1, fun _ => rfl⟩, ?_, ?_⟩
      · exact iff_of_false (by decide) (by intro hc2; linarith)
      · exact iff_of_false (by decide) (fun h => h.1 hc1)
    · rw [if_neg hc1]
      by_cases hc2 : avg_second < avg_first - 1/50
      · rw [if_pos hc2]
        exact ⟨iff_of_false (by decide) (fun h => hc1 h),
          ⟨fun _ => hc2, fun _ => rfl⟩,
          iff_of_false (by decide) (fun h => h.2 hc2)⟩
      · rw [if_neg hc2]
        exact ⟨iff_of_false (by decide) (fun h => hc1 h),
          iff_of_false (by decide) (fun h => hc2 h),
          ⟨fun _ => ⟨hc1, hc2⟩, fun _ => rfl⟩⟩

/-- Witness for C3: scores 0.5 then 0.6 classify as `"improving"`. -/
theorem trend_classifier_witness :
    calculate_compliance_trend
      [{ compliance_score := 1/2, violations := [], violation_summary := [] },
       { compliance_score := 3/5, violations := [], violation_summary := [] }]
      = "improving" := by
  have h := (trend_classifier_spec
    [{ compliance_score := 1/2, violations := [], violation_summary := [] },
     { compliance_score := 3/5, violations := [], violation_summary := [] }]).2
    [1/2, 3/5] rfl (by norm_num) (1/2) (3/5) (by norm_num) (by norm_num)
  exact h.1.mpr (by norm_num)

theorem oversized_row_spec {max_value limit_pct : ℚ} {regime : String}
    {p : Nat × Trade} {v : Violation}
    (h : oversized_row max_value limit_pct regime p = some v) :
    v.trade_index = p.1 ∧ v.violation_type = "Oversized for Regime"
      ∧ ∃ e s, p.2.entry_price = some e ∧ p.2.shares = some s
        ∧ e * s > max_value := by
  unfold oversized_row at h
  split at h
  · rename_i e s he hs
    dsimp only at h
    split at h
    · rename_i hgt
      injection h with h'
      subst h'
      exact ⟨rfl, rfl, e, s, he, hs, hgt⟩
    · cases h
  · cases h

theorem oversized_row_some {max_value limit_pct : ℚ} {regime : String}
    (i : Nat) (t : Trade) (e s : ℚ)
    (he : t.entry_price = some e) (hs : t.shares = some s)
    (hgt : e * s > max_value) :
    ∃ v, oversized_row max_value limit_pct regime (i, t) = some v
      ∧ v.trade_index = i ∧ v.violation_type = "Oversized for Regime" := by
  rcases hrow : oversized_row max_value limit_pct regime (i, t) with _ | v
  · exfalso
    unfold oversized_row at hrow
    dsimp only at hrow
    rw [he, hs] at hrow
    dsimp only at hrow
    rw [if_pos hgt] at hrow
    cases hrow
  · obtain ⟨hvi, hvt, -⟩ := oversized_row_spec hrow
    exact ⟨v, rfl, hvi, hvt⟩

/-- Claim C4: the regime-aware sizing check resolves the limit by exact match
first, then by the first prefix-matching entry; it is a no-op when
`account_size` is 0/absent (or nonpositive) or when no limit resolves; with a
positive account and a resolved limit it flags trade `i` with
`"Oversized for Regime"` exactly when `entry_price * shares >
(limit_pct / 100) * account_size`, silently skipping trades missing either
field. -/
theorem oversized_for_regime_spec (trades : List Trade) (account_size : ℚ)
    (limits : List (String × ℚ)) (current_regime : String) :
    (∀ l, limits.lookup current_regime = some l →
        resolve_regime_limit limits current_regime = some l)
      ∧ (limits.lookup current_regime = none →
          resolve_regime_limit limits current_regime
            = (limits.find? (fun kv => str_startswith current_regime kv.1)).map
                (fun kv => kv.2))
      ∧ (account_size ≤ 0 →
          check_oversized_for_regime trades account_size limits current_regime = [])
      ∧ (∀ plan : Plan, plan.account_size = none →
          check_oversized_for_regime trades (plan.account_size.getD 0) limits
            current_regime = [])
      ∧ (resolve_regime_limit limits current_regime = none →
          check_oversized_for_regime trades account_size limits current_regime = [])
      ∧ (∀ l, 0 < account_size →
          resolve_regime_limit limits current_regime = some l →
          ∀ i t, trades[i]? = some t →
            (∀ e s, t.entry_price = some e → t.shares = some s →
              ((∃ v ∈ check_oversized_for_regime trades account_size limits current_regime,
                  v.trade_index = i ∧ v.violation_type = "Oversized for Regime")
                ↔ e * s > l / 100 * account_size))
            ∧ ((t.entry_price = none ∨ t.shares = none) →
                ¬∃ v ∈ check_oversized_for_regime trades account_size limits current_regime,
                  v.trade_index = i)) := by
  refine ⟨?_, ?_, ?_, ?_, ?_, ?_⟩
  · intro l hl
    unfold resolve_regime_limit
    rw [hl]
  · intro hl
    unfold resolve_regime_limit
    rw [hl]
  · intro hle
    unfold check_oversized_for_regime
    rw [if_pos hle]
  · intro plan hnone
    unfold check_oversized_for_regime
    rw [hnone]
    rw [if_pos (by norm_num [Option.getD])]
  · intro hres
    unfold check_oversized_for_regime
    split
    · rfl
    · rw [hres]
  · intro l h0 hres i t hit
    have hcheck : check_oversized_for_regime trades account_size limits current_regime
        = trades.enum.filterMap (oversized_row (l / 100 * account_size) l current_regime) := by
      unfold check_oversized_for_regime
      rw [if_neg (not_le.2 h0), hres]
    constructor
    · intro e s he hs
      constructor
      · rintro ⟨v, hv, hvi, -⟩
        rw [hcheck, mem_filterMap_enum_iff] at hv
        obtain ⟨j, t2, hjt, hrow⟩ := hv
        obtain ⟨hidx, -, e2, s2, he2, hs2, hgt⟩ := oversized_row_spec hrow
        rw [hvi] at hidx
        subst hidx
        rw [hit] at hjt
        injection hjt with ht
        subst ht
        rw [he] at he2
        injection he2 with he2
        rw [hs] at hs2
        injection hs2 with hs2
        rw [← he2, ← hs2] at hgt
        exact hgt
      · intro hgt
        obtain ⟨v, hrow, hvi, hvt⟩ :=
          @oversized_row_some (l / 100 * account_size) l current_regime i t e s he hs hgt
        refine ⟨v, ?_, hvi, hvt⟩
        rw [hcheck, mem_filterMap_enum_iff]
        exact ⟨i, t, hit, hrow⟩
    · intro hmiss
      rintro ⟨v, hv, hvi⟩
      rw [hcheck, mem_filterMap_enum_iff] at hv
      obtain ⟨j, t2, hjt, hrow⟩ := hv
      obtain ⟨hidx, -, e2, s2, he2, hs2, -⟩ := oversized_row_spec hrow
      rw [hvi] at hidx
      subst hidx
      rw [hit] at hjt
      injection hjt with ht
      subst ht
      rcases hmiss with hm | hm
      · rw [hm] at he2
        cases he2
      · rw [hm] at hs2
        cases hs2

/-- Witness for C4 at a concrete check: prefix-matched limit, oversized trade. -/
theorem oversized_for_regime_witness :
    (∃ v ∈ check_oversized_for_regime
        [{ entry_price := some 100, shares := some 50 }] 10000
        [("Risk-Off", 20)] "Risk-Off / High Vol",
      v.trade_index = 0 ∧ v.violation_type = "Oversized for Regime")
    ∧ resolve_regime_limit [("Risk-Off", 20)] "Risk-Off / High Vol" = some 20 := by
  have h := oversized_for_regime_spec
    [{ entry_price := some 100, shares := some 50 }] 10000
    [("Risk-Off", 20)] "Risk-Off / High Vol"
  have hlookup : ([("Risk-Off", (20 : ℚ))].lookup "Risk-Off / High Vol") = none := by
    rfl
  have hres : resolve_regime_limit [("Risk-Off", 20)] "Risk-Off / High Vol"
      = some 20 := by
    rw [h.2.1 hlookup]
    decide
  have h6 := h.2.2.2.2.2 20 (by norm_num) hres 0
    { entry_price := some 100, shares := some 50 } rfl
  exact ⟨(h6.1 100 50 rfl rfl).mpr (by norm_num), hres⟩

theorem resolve_regime_limit_exact {limits : List (String × ℚ)}
    {current_regime : String} {l : ℚ}
    (hl : limits.lookup current_regime = some l) :
    resolve_regime_limit limits current_regime = some l := by
  unfold resolve_regime_limit
  rw [hl]

theorem sizing_row_index_eq (a l : ℚ) (h0 : 0 < a) (regime : String)
    (p : Nat × Trade) :
    (position_sizing_row a l regime p).map (fun v => v.trade_index)
      = (oversized_row (l / 100 * a) l regime p).map (fun v => v.trade_index) := by
  unfold position_sizing_row oversized_row
  rcases he : p.2.entry_price with _ | e <;> rcases hs : p.2.shares with _ | s <;>
    simp [he, hs, apply_ite]
  have hiff : s * e / a * 100 > l ↔ e * s > l / 100 * a := by
    rw [gt_iff_lt, gt_iff_lt, div_mul_eq_mul_div, lt_div_iff₀ h0,
      div_mul_eq_mul_div, div_lt_iff₀ (by norm_num : (0 : ℚ) < 100)]
    constructor <;> intro h <;> nlinarith [h]
  split_ifs with hc
  · exact hiff.2 hc
  · exact not_lt.1 fun hlt => hc (hiff.1 hlt)

/-- Claim C10: whenever `position_limits_by_regime` holds an exact entry for
the current regime and `account_size` is positive, `check_position_sizing`
and `check_oversized_for_regime` flag exactly the same trade indices (the
per-trade comparisons `(position_size / account_size) * 100 > limit_pct` and
`position_value > (limit_pct / 100) * account_size` are equivalent). -/
theorem sizing_checks_equiv (trades : List Trade) (plan : Plan)
    (current_regime : String) (a l : ℚ) (limits : List (String × ℚ))
    (ha : plan.account_size = some a) (h0 : 0 < a)
    (hlim : plan.position_limits_by_regime = some limits)
    (hl : limits.lookup current_regime = some l) :
    (check_position_sizing trades plan current_regime).map (fun v => v.trade_index)
      = (check_oversized_for_regime trades a limits current_regime).map
          (fun v => v.trade_index) := by
  have hleft : check_position_sizing trades plan current_regime
      = trades.enum.filterMap (position_sizing_row a l current_regime) := by
    unfold check_position_sizing
    rw [hlim, ha]
    dsimp only
    rw [hl]
  have hright : check_oversized_for_regime trades a limits current_regime
      = trades.enum.filterMap (oversized_row (l / 100 * a) l current_regime) := by
    unfold check_oversized_for_regime
    rw [if_neg (not_le.2 h0), resolve_regime_limit_exact hl]
  rw [hleft, hright, List.map_filterMap, List.map_filterMap]
  exact List.filterMap_congr (fun p _ => sizing_row_index_eq a l h0 current_regime p)

/-- Witness for C10 at a concrete plan: exact limit entry, positive account. -/
theorem sizing_checks_equiv_witness :
    (check_position_sizing [{ entry_price := some 100, shares := some 50 }]
        { allowed_regimes := ["Risk-Off"], account_size := some 10000,
          position_limits_by_regime := some [("Risk-Off", 20)] }
        "Risk-Off").map (fun v => v.trade_index)
      = (check_oversized_for_regime [{ entry_price := some 100, shares := some 50 }]
          10000 [("Risk-Off", 20)] "Risk-Off").map (fun v => v.trade_index) :=
  sizing_checks_equiv [{ entry_price := some 100, shares := some 50 }]
    { allowed_regimes := ["Risk-Off"], account_size := some 10000,
      position_limits_by_regime := some [("Risk-Off", 20)] }
    "Risk-Off" 10000 20 [("Risk-Off", 20)] rfl (by norm_num) rfl (by rfl)

theorem index_of_mem_check_r_multiple_row {v : Violation} {i : Nat} {t : Trade}
    (h : v ∈ check_r_multiple_row i t) : v.trade_index = i := by
  rw [mem_check_r_multiple_row_iff] at h
  obtain ⟨e, x, st, -, -, -, -, h⟩ := h
  rcases h with h | h
  · exact (early_exit_viols_spec h).1
  · exact (late_exit_viols_spec h).1

theorem exists_r_multiple_viol_iff {trades : List Trade} {i : Nat} {t : Trade}
    {ty : String} (hit : trades[i]? = some t) :
    (∃ v ∈ check_r_multiple trades, v.trade_index = i ∧ v.violation_type = ty)
      ↔ ∃ v ∈ check_r_multiple_row i t, v.violation_type = ty := by
  constructor
  · rintro ⟨v, hv, hvi, hvt⟩
    rw [mem_check_r_multiple_iff] at hv
    obtain ⟨j, t2, hjt, hrow⟩ := hv
    have hidx : i = j := (hvi.symm).trans (index_of_mem_check_r_multiple_row hrow)
    subst hidx
    rw [hit] at hjt
    injection hjt with ht
    subst ht
    exact ⟨v, hrow, hvt⟩
  · rintro ⟨v, hv, hvt⟩
    exact ⟨v, mem_check_r_multiple_iff.2 ⟨i, t, hit, hv⟩,
      index_of_mem_check_r_multiple_row hv, hvt⟩

theorem early_exit_row_iff {i : Nat} {t : Trade} {e x st : ℚ}
    (he : t.entry_price = some e) (hx : t.exit_price = some x)
    (hst : t.stop_price = some st)
    (hg : ¬|trade_risk t e st| < 1/10000) :
    (∃ v ∈ check_r_multiple_row i t, v.violation_type = "Early Exit")
      ↔ 0 ≤ r_numerator t e x / trade_risk t e st
          ∧ r_numerator t e x / trade_risk t e st < 1/2 := by
  constructor
  · rintro ⟨v, hv, hvt⟩
    rw [mem_check_r_multiple_row_iff] at hv
    obtain ⟨e2, x2, st2, he2, hx2, hst2, -, hv⟩ := hv
    rw [he] at he2
    injection he2 with he2
    rw [hx] at hx2
    injection hx2 with hx2
    rw [hst] at hst2
    injection hst2 with hst2
    subst he2
    subst hx2
    subst hst2
    rcases hv with hv | hv
    · obtain ⟨-, -, h0, hlt⟩ := early_exit_viols_spec hv
      exact ⟨h0, hlt⟩
    · obtain ⟨-, hty, -, -⟩ := late_exit_viols_spec hv
      rw [hty] at hvt
      exact absurd hvt (by decide)
  · rintro ⟨h0, hlt⟩
    obtain ⟨v, hv, -, hvt⟩ := exists_early_exit_viol i _ h0 hlt
    refine ⟨v, ?_, hvt⟩
    rw [mem_check_r_multiple_row_iff]
    exact ⟨e, x, st, he, hx, hst, hg, Or.inl hv⟩

theorem late_exit_row_iff {i : Nat} {t : Trade} {e x st : ℚ}
    (he : t.entry_price = some e) (hx : t.exit_price = some x)
    (hst : t.stop_price = some st)
    (hg : ¬|trade_risk t e st| < 1/10000) :
    (∃ v ∈ check_r_multiple_row i t, v.violation_type = "Late Exit")
      ↔ |x - st| < 1/100 ∧ |trade_risk t e st| > 1/100 := by
  constructor
  · rintro ⟨v, hv, hvt⟩
    rw [mem_check_r_multiple_row_iff] at hv
    obtain ⟨e2, x2, st2, he2, hx2, hst2, -, hv⟩ := hv
    rw [he] at he2
    injection he2 with he2
    rw [hx] at hx2
    injection hx2 with hx2
    rw [hst] at hst2
    injection hst2 with hst2
    subst he2
    subst hx2
    subst hst2
    rcases hv with hv | hv
    · obtain ⟨-, hty, -, -⟩ := early_exit_viols_spec hv
      rw [hty] at hvt
      exact absurd hvt (by decide)
    · obtain ⟨-, -, hstop, hrisk⟩ := late_exit_viols_spec hv
      exact ⟨hstop, hrisk⟩
  · rintro ⟨hstop, hrisk⟩
    obtain ⟨v, hv, -, hvt⟩ := exists_late_exit_viol i
      (r_numerator t e x / trade_risk t e st) (trade_risk t e st) x st hstop hrisk
    refine ⟨v, ?_, hvt⟩
    rw [mem_check_r_multiple_row_iff]
    exact ⟨e, x, st, he, hx, hst, hg, Or.inr hv⟩

/-- Counterexample for C5's concrete scenario: the code computes
`r_multiple = (exit - entry) / (entry - stop)`, so the LONG trade
entry=100, stop=90, exit=94 has `r_multiple = -0.6` (not 0.4) and receives
no violation at all, contradicting "exit=94 (r_multiple 0.4) is flagged". -/
theorem early_exit_example_counterexample :
    check_r_multiple [{ entry_price := some 100, exit_price := some 94, stop_price := some 90 }] = [] := by
  have hside : ¬ (trade_side { entry_price := some 100, exit_price := some 94, stop_price := some 90 } = "SHORT") := by decide
  norm_num [check_r_multiple, check_r_multiple_row, trade_risk, r_numerator,
    early_exit_viols, late_exit_viols, List.enum_eq_enumFrom, List.enumFrom, hside]

/-- Claim C5 (amended): risk is `entry - stop` for LONG and `stop - entry`
for SHORT (side case-insensitive, unrecognized treated as LONG), and for a
trade with all three prices and `|risk| ≥ 0.0001` an `"Early Exit"` is
flagged exactly when `0 ≤ r_multiple < 0.5`, where `r_multiple` divides the
profit `(exit - entry)` for LONG / `(entry - exit)` for SHORT by the risk;
concretely, a LONG trade entry=100, stop=90, exit=105 (r_multiple exactly
0.5) is not flagged, while exit=104 (r_multiple 0.4) is flagged. -/
theorem early_exit_spec (trades : List Trade) :
    (∀ t : Trade, trade_side t ≠ "SHORT" →
        ∀ e st : ℚ, trade_risk t e st = e - st)
      ∧ (∀ t : Trade, trade_side t = "SHORT" →
          ∀ e st : ℚ, trade_risk t e st = st - e)
      ∧ (∀ e st : ℚ, trade_risk { side := some "short" } e st = st - e)
      ∧ (∀ e st : ℚ, trade_risk { side := some "hold" } e st = e - st)
      ∧ (∀ i t, trades[i]? = some t →
          ∀ e x st, t.entry_price = some e → t.exit_price = some x →
            t.stop_price = some st →
          ¬|trade_risk t e st| < 1/10000 →
          ((∃ v ∈ check_r_multiple trades,
              v.trade_index = i ∧ v.violation_type = "Early Exit")
            ↔ 0 ≤ r_numerator t e x / trade_risk t e st
                ∧ r_numerator t e x / trade_risk t e st < 1/2))
      ∧ check_r_multiple [{ entry_price := some 100, exit_price := some 105, stop_price := some 90 }] = []
      ∧ (check_r_multiple [{ entry_price := some 100, exit_price := some 104, stop_price := some 90 }]).map (fun v => (v.trade_index, v.violation_type))
          = [(0, "Early Exit")] := by
  refine ⟨?_, ?_, ?_, ?_, ?_, ?_, ?_⟩
  · intro t hns e st
    unfold trade_risk
    rw [if_neg hns]
  · intro t hs e st
    unfold trade_risk
    rw [if_pos hs]
  · intro e st
    have h : trade_side { side := some "short" } = "SHORT" := by decide
    unfold trade_risk
    rw [if_pos h]
  · intro e st
    have h : ¬ (trade_side { side := some "hold" } = "SHORT") := by decide
    unfold trade_risk
    rw [if_neg h]
  · intro i t hit e x st he hx hst hg
    rw [exists_r_multiple_viol_iff hit]
    exact early_exit_row_iff he hx hst hg
  · have hside : ¬ (trade_side { entry_price := some 100, exit_price := some 105, stop_price := some 90 } = "SHORT") := by decide
    norm_num [check_r_multiple, check_r_multiple_row, trade_risk, r_numerator,
      early_exit_viols, late_exit_viols, List.enum_eq_enumFrom, List.enumFrom, hside]
  · have hside : ¬ (trade_side { entry_price := some 100, exit_price := some 104, stop_price := some 90 } = "SHORT") := by decide
    norm_num [check_r_multiple, check_r_multiple_row, trade_risk, r_numerator,
      early_exit_viols, late_exit_viols, List.enum_eq_enumFrom, List.enumFrom, hside]

/-- Witness for C5 at the corrected concrete input exit=104. -/
theorem early_exit_witness :
    ∃ v ∈ check_r_multiple [{ entry_price := some 100, exit_price := some 104, stop_price := some 90 }],
      v.trade_index = 0 ∧ v.violation_type = "Early Exit" := by
  have hside : ¬ (trade_side { entry_price := some 100, exit_price := some 104, stop_price := some 90 } = "SHORT") := by decide
  have h := (early_exit_spec [{ entry_price := some 100, exit_price := some 104, stop_price := some 90 }]).2.2.2.2.1
    0 { entry_price := some 100, exit_price := some 104, stop_price := some 90 } rfl
    100 104 90 rfl rfl rfl (by norm_num [trade_risk, hside])
  exact h.mpr (by norm_num [r_numerator, trade_risk, hside])

/-- Claim C6: with all three prices present and `|risk| ≥ 0.0001`, a
`"Late Exit"` is emitted exactly when the exit is within 0.01 of the stop
and `|risk| > 0.01`, independently of any `"Early Exit"` on the same trade
(the right-hand side does not mention the Early Exit condition). -/
theorem late_exit_spec (trades : List Trade) :
    ∀ i t, trades[i]? = some t →
    ∀ e x st, t.entry_price = some e → t.exit_price = some x →
      t.stop_price = some st →
    ¬|trade_risk t e st| < 1/10000 →
    ((∃ v ∈ check_r_multiple trades,
        v.trade_index = i ∧ v.violation_type = "Late Exit")
      ↔ |x - st| < 1/100 ∧ |trade_risk t e st| > 1/100) := by
  intro i t hit e x st he hx hst hg
  rw [exists_r_multiple_viol_iff hit]
  exact late_exit_row_iff he hx hst hg

/-- Witness for C6: a LONG stop-out (entry=100, stop=90, exit=90). -/
theorem late_exit_witness :
    ∃ v ∈ check_r_multiple [{ entry_price := some 100, exit_price := some 90, stop_price := some 90 }],
      v.trade_index = 0 ∧ v.violation_type = "Late Exit" := by
  have hside : ¬ (trade_side { entry_price := some 100, exit_price := some 90, stop_price := some 90 } = "SHORT") := by decide
  have h := late_exit_spec [{ entry_price := some 100, exit_price := some 90, stop_price := some 90 }]
    0 { entry_price := some 100, exit_price := some 90, stop_price := some 90 } rfl
    100 90 90 rfl rfl rfl (by norm_num [trade_risk, hside])
  exact h.mpr (by norm_num [trade_risk, hside])

theorem side_upperE_toRow (t : Trade) :
    side_upperE (Trade.toRow t).side = Except.ok (trade_side t) := by
  rcases ht : t.side with _ | s <;>
    simp [Trade.toRow, side_upperE, trade_side, ht]

theorem check_r_multiple_rowE_eq (i : Nat) (t : Trade) :
    check_r_multiple_rowE i (Trade.toRow t) = Except.ok (check_r_multiple_row i t) := by
  unfold check_r_multiple_rowE
  rw [side_upperE_toRow]
  dsimp only [Trade.toRow]
  rcases he : t.entry_price with _ | e
  · simp [check_r_multiple_row, he]
  rcases hx : t.exit_price with _ | x
  · simp [check_r_multiple_row, he, hx]
  rcases hst : t.stop_price with _ | st
  · simp [check_r_multiple_row, he, hx, hst]
  simp only [check_r_multiple_row, he, hx, hst, trade_risk, r_numerator]
  by_cases hg : |if trade_side t = "SHORT" then st - e else e - st| < (1 : ℚ)/10000
  · rw [if_pos hg, if_pos hg]
  · have hne : (if trade_side t = "SHORT" then st - e else e - st) ≠ 0 := by
      intro h0
      rw [h0] at hg
      exact hg (by norm_num)
    rw [if_neg hg, if_neg hg]
    simp only [divE]
    rw [if_neg hne]

theorem check_r_multipleE_aux_eq : ∀ (n : Nat) (trades : List Trade),
    check_r_multipleE_aux ((trades.map Trade.toRow).enumFrom n)
      = Except.ok (((trades.enumFrom n).map
          (fun p => check_r_multiple_row p.1 p.2)).flatten)
  | _, [] => rfl
  | n, t :: rest => by
    simp only [List.map_cons, List.enumFrom_cons]
    unfold check_r_multipleE_aux
    dsimp only
    rw [check_r_multiple_rowE_eq, check_r_multipleE_aux_eq (n + 1) rest]
    simp

/-- Claim C8 (amended): for trade sequences whose `side` cells are strings
or absent, the R-multiple check never raises — the fallible translation
(raising `.upper()` and division) returns `ok` with exactly the total
model's violations — and a trade whose `|risk|` is below 0.0001 is skipped:
it contributes no violation at its index.  A non-string `side` cell (e.g.
`NaN`), however, raises `AttributeError` before any guard
(`check_r_multipleE_nan_side_raises`). -/
theorem check_r_multiple_total_spec (trades : List Trade) :
    check_r_multipleE (trades.map Trade.toRow) = Except.ok (check_r_multiple trades)
      ∧ (∀ i t, trades[i]? = some t →
          ∀ e x st, t.entry_price = some e → t.exit_price = some x →
            t.stop_price = some st →
          |trade_risk t e st| < 1/10000 →
          ¬∃ v ∈ check_r_multiple trades, v.trade_index = i) := by
  constructor
  · have h := check_r_multipleE_aux_eq 0 trades
    rw [← List.enum_eq_enumFrom, ← List.enum_eq_enumFrom] at h
    unfold check_r_multipleE check_r_multiple
    exact h
  · intro i t hit e x st he hx hst hg
    rintro ⟨v, hv, hvi⟩
    rw [mem_check_r_multiple_iff] at hv
    obtain ⟨j, t2, hjt, hrow⟩ := hv
    have hidx : i = j := hvi.symm.trans (index_of_mem_check_r_multiple_row hrow)
    subst hidx
    rw [hit] at hjt
    injection hjt with ht
    subst ht
    rw [mem_check_r_multiple_row_iff] at hrow
    obtain ⟨e2, x2, st2, he2, hx2, hst2, hg2, -⟩ := hrow
    rw [he] at he2
    injection he2 with he2
    rw [hst] at hst2
    injection hst2 with hst2
    subst he2
    subst hst2
    exact hg2 hg

/-- Witness for C8: a zero-risk trade (entry = stop) is skipped, not an error. -/
theorem check_r_multiple_total_witness :
    ¬∃ v ∈ check_r_multiple [{ entry_price := some 100, exit_price := some 101, stop_price := some 100 }],
      v.trade_index = 0 := by
  have hside : ¬ (trade_side { entry_price := some 100, exit_price := some 101, stop_price := some 100 } = "SHORT") := by decide
  exact (check_r_multiple_total_spec [{ entry_price := some 100, exit_price := some 101, stop_price := some 100 }]).2
    0 { entry_price := some 100, exit_price := some 101, stop_price := some 100 } rfl
    100 101 100 rfl rfl rfl (by norm_num [trade_risk, hside])

/-- Counterexample for C7: an existing but unparseable store makes
`load_memory` raise (`json.loads` has no try/except around it), so the load
operation does not "never raise for a corrupt store". -/
theorem load_memory_corrupt_raises :
    load_memory StoredState.corrupt = Except.error "json.JSONDecodeError" := rfl

/-- Claim C7 (amended): the load operation returns the fresh empty history
state when no prior state exists and the stored state when it parses, but an
existing unparseable store raises a parse error instead of degrading to the
empty history. -/
theorem load_memory_spec :
    load_memory StoredState.missing = Except.ok { history := [] }
      ∧ (∀ s, load_memory (StoredState.parsed s) = Except.ok s)
      ∧ load_memory StoredState.corrupt = Except.error "json.JSONDecodeError" :=
  ⟨rfl, fun _ => rfl, rfl⟩

/-- Counterexample for C8 as originally claimed: a row whose `side` column
holds a non-string cell (a blank cell read as `NaN`) makes the R-multiple
check raise `AttributeError` at `row.get("side", "LONG").upper()`, before
the missing-field and zero-risk guards — so the check is not total for
arbitrary side values, even with all prices present. -/
theorem check_r_multipleE_nan_side_raises :
    check_r_multipleE [{ side := SideCell.nonstring, entry_price := some 100, exit_price := some 105, stop_price := some 90 }]
      = Except.error "AttributeError" := rfl
